import Mathlib

/-!
Verification development for the FlatBuffer configuration loader
(`score/mw/com/impl/configuration/flatbuffer_config_loader.cpp`).

The wire side (FlatBuffer tables read through the generated accessors) is
modelled with structures whose scalar fields are `Nat`, whose sub-table and
vector fields are `Option`-wrapped exactly where the generated accessor can
return `nullptr`, and whose vectors are `List`s. The four section mappers are
translated statement by statement from the source; each `LogFatal` +
`std::terminate` site becomes one constructor of the `Fatal` type and the
mappers return `Except Fatal`.
-/

set_option autoImplicit false

namespace FlatBufferConfig

/-! ### Association-list maps

`std::map` / `std::unordered_map` values are modelled as association lists in
insertion order. `emplace` has the C++ `emplace` semantics: it inserts only
when the key is absent and leaves an existing entry unchanged. -/

variable {α β : Type}

/-- Key membership in an association list. -/
def containsKey [DecidableEq α] : List (α × β) → α → Bool
  | [], _ => false
  | p :: rest, k => if p.1 = k then true else containsKey rest k

/-- First-match lookup in an association list. -/
def lookupKey [DecidableEq α] : List (α × β) → α → Option β
  | [], _ => none
  | p :: rest, k => if p.1 = k then some p.2 else lookupKey rest k

/-- Models `std::unordered_map::emplace`: inserts only when the key is absent;
an existing entry is kept unchanged (no overwrite). -/
def emplace [DecidableEq α] (m : List (α × β)) (k : α) (v : β) : List (α × β) :=
  if containsKey m k then m else m ++ [(k, v)]

/-- The keys of an association list, in order. -/
def keysOf (m : List (α × β)) : List α := m.map Prod.fst

/-! ### Wire model (FlatBuffer tables) -/

/-- The `BindingType` enum of the schema. FlatBuffer enums are integers on the
wire, so a raw value outside the declared enumerators is representable; the
source handles it in a distinct fatal branch. -/
inductive BindingType where
  | SHM
  | SOME_IP
  | unknown (raw : Nat)
deriving DecidableEq

/-- The `AsilLevel` enum of the schema. -/
inductive AsilLevel where
  | QM
  | B
deriving DecidableEq

/-- The `PermissionCheckStrategy` enum of the schema. -/
inductive PermissionCheckStrategy where
  | STRICT
  | RELAXED
deriving DecidableEq

/-- The target quality classification. -/
inductive QualityType where
  | kASIL_QM
  | kASIL_B
deriving DecidableEq

/-- Modelled from the spec: `shm_size_calc_mode.h` is not under src/. The spec
says a single mode (simulation) is currently supported; a second constructor
represents any not-yet-supported alternative so that "pinned regardless of the
buffer" is expressible. -/
inductive ShmSizeCalculationMode where
  | kSimulation
  | kEstimation
deriving DecidableEq

/-- A `version` sub-object: major and minor numbers. -/
structure Version where
  major : Nat
  minor : Nat
deriving DecidableEq

/-- A type-level event entry of an SHM binding (`event_name`, `event_id`). -/
structure WireTypeEvent where
  event_name : String
  event_id : Nat
deriving DecidableEq

/-- A type-level field entry of an SHM binding (`field_name`, `field_id`). -/
structure WireTypeField where
  field_name : String
  field_id : Nat
deriving DecidableEq

/-- A type-level method entry of an SHM binding (`method_name`, `method_id`). -/
structure WireTypeMethod where
  method_name : String
  method_id : Nat
deriving DecidableEq

/-- One entry of a service type's `bindings` vector. The three entity vectors
may be absent (`nullptr`). -/
structure WireBinding where
  binding : BindingType
  service_id : Nat
  events : Option (List WireTypeEvent)
  fields : Option (List WireTypeField)
  methods : Option (List WireTypeMethod)
deriving DecidableEq

/-- One entry of the root's `service_types` vector. `service_type_name` and
`bindings` are schema-required; `version` can come back `nullptr` and the
source checks it. -/
structure WireServiceType where
  service_type_name : String
  version : Option Version
  bindings : List WireBinding
deriving DecidableEq

/-- An instance-level event entry. -/
structure WireEvent where
  event_name : String
  number_of_sample_slots : Nat
  max_subscribers : Nat
  enforce_max_samples : Bool
  number_of_ipc_tracing_slots : Nat
deriving DecidableEq

/-- An instance-level field entry. -/
structure WireField where
  field_name : String
  number_of_sample_slots : Nat
  max_subscribers : Nat
  enforce_max_samples : Bool
  number_of_ipc_tracing_slots : Nat
deriving DecidableEq

/-- An instance-level method entry. -/
structure WireMethod where
  method_name : String
  queue_size : Nat
deriving DecidableEq

/-- The `allowed_consumer` / `allowed_provider` permission table: two optional
uid vectors, one per quality level. -/
structure WirePermissions where
  qm : Option (List Nat)
  b : Option (List Nat)
deriving DecidableEq

/-- One entry of a service instance's `instances` vector. The source
null-checks individual elements of the event/field/method vectors, so those
are lists of `Option`. -/
structure WireInstance where
  binding : BindingType
  asil_level : AsilLevel
  instance_id : Nat
  events : Option (List (Option WireEvent))
  fields : Option (List (Option WireField))
  methods : Option (List (Option WireMethod))
  allowed_consumer : Option WirePermissions
  allowed_provider : Option WirePermissions
  permission_checks : PermissionCheckStrategy
  shm_size : Nat
  control_asil_b_shm_size : Nat
  control_qm_shm_size : Nat
deriving DecidableEq

/-- One entry of the root's `service_instances` vector. `version` is
schema-required; the source dereferences it without a null check, so it is
`Option` here with the dereference modelled explicitly. -/
structure WireServiceInstance where
  instance_specifier : String
  service_type_name : String
  version : Option Version
  instances : Option (List WireInstance)
deriving DecidableEq

/-- The `queue_size` sub-object of the `global` section. -/
structure WireQueueSize where
  qm_receiver : Nat
  b_receiver : Nat
  b_sender : Nat
deriving DecidableEq

/-- The root's optional `global` section. `shm_size_calc_mode` stands for
whatever mode value the buffer may encode; the loader never reads it. -/
structure WireGlobal where
  asil_level : AsilLevel
  application_id : Nat
  queue_size : Option WireQueueSize
  shm_size_calc_mode : Nat
deriving DecidableEq

/-- The root's optional `tracing` section. `application_instance_id` is
schema-required. -/
structure WireTracing where
  enable : Bool
  application_instance_id : String
  trace_filter_config_path : Option String
deriving DecidableEq

/-- The verified root object `ComConfiguration`: required `service_types` and
`service_instances`, optional `global` and `tracing`. -/
structure WireComConfiguration where
  service_types : List WireServiceType
  service_instances : List WireServiceInstance
  global : Option WireGlobal
  tracing : Option WireTracing
deriving DecidableEq

/-! ### Target model -/

/-- `ServiceIdentifier`: the (name, major, minor) triple; equality is exact
equality of the triple. -/
structure ServiceIdentifier where
  service_type_name : String
  major : Nat
  minor : Nat
deriving DecidableEq

/-- `make_ServiceIdentifierType` from the source. -/
def make_ServiceIdentifierType (name : String) (major minor : Nat) : ServiceIdentifier :=
  { service_type_name := name, major := major, minor := minor }

/-- A validated instance specifier. -/
structure InstanceSpecifier where
  value : String
deriving DecidableEq

/-- Modelled from the spec: `InstanceSpecifier::Create` lives in
`instance_specifier.cpp`, not under src/. The spec says a specifier "must
parse successfully against format rules" without giving the rules; validation
is modelled minimally as rejecting the empty string. The claims below depend
only on accepted-versus-rejected and on equal strings yielding equal
specifiers. -/
def InstanceSpecifierCreate (s : String) : Option InstanceSpecifier :=
  if s = ("") then none else some ⟨s⟩

/-- Instance-level event deployment. The third constructor argument of the
C++ class is always passed `std::nullopt` by this loader. Counts that the
source narrows with `static_cast` carry the narrowed value. -/
structure LolaEventInstanceDeployment where
  number_of_sample_slots : Option Nat
  max_subscribers : Option Nat
  max_concurrent_allocations : Option Nat
  enforce_max_samples : Bool
  number_of_ipc_tracing_slots : Nat
deriving DecidableEq

/-- Instance-level field deployment; same shape as the event deployment. -/
structure LolaFieldInstanceDeployment where
  number_of_sample_slots : Option Nat
  max_subscribers : Option Nat
  max_concurrent_allocations : Option Nat
  enforce_max_samples : Bool
  number_of_ipc_tracing_slots : Nat
deriving DecidableEq

/-- Instance-level method deployment: an optional queue size. -/
structure LolaMethodInstanceDeployment where
  queue_size : Option Nat
deriving DecidableEq

/-- Instance-level SHM deployment record. -/
structure LolaServiceInstanceDeployment where
  instance_id : Option Nat
  events : List (String × LolaEventInstanceDeployment)
  fields : List (String × LolaFieldInstanceDeployment)
  methods : List (String × LolaMethodInstanceDeployment)
  strict_permissions : Bool
  allowed_consumer : List (QualityType × List Nat)
  allowed_provider : List (QualityType × List Nat)
  shared_memory_size : Option Nat
  control_asil_b_memory_size : Option Nat
  control_qm_memory_size : Option Nat
deriving DecidableEq

/-- Type-level SHM deployment: service id plus the three name→id maps. The
ids carry the `static_cast<uint8_t>` narrowing of the source. -/
structure LolaServiceTypeDeployment where
  service_id : Nat
  events : List (String × Nat)
  fields : List (String × Nat)
  methods : List (String × Nat)
deriving DecidableEq

/-- The `ServiceTypeDeployment::BindingInformation` variant: `score::cpp::blank`
before a binding is accepted, or the SHM deployment. -/
inductive ServiceTypeBindingInformation where
  | blank
  | lola (d : LolaServiceTypeDeployment)
deriving DecidableEq

/-- A `ServiceTypeDeployment` wraps the binding information variant. -/
structure ServiceTypeDeployment where
  binding_info : ServiceTypeBindingInformation
deriving DecidableEq

/-- A `ServiceInstanceDeployment`. The source stores the binding information
in a variant; this loader only ever builds the Lola (SHM) alternative, which
is stored directly. -/
structure ServiceInstanceDeployment where
  service_identifier : ServiceIdentifier
  binding_info : LolaServiceInstanceDeployment
  asil_level : QualityType
  instance_specifier : InstanceSpecifier
deriving DecidableEq

/-- Modelled from the spec: `global_configuration.h` is not under src/. Per the
spec, when the `global` section is absent the mapper returns "a configuration
object with unset values", so every settable field is an `Option` and default
construction leaves all of them unset; a setter call stores `some`. -/
structure GlobalConfiguration where
  process_asil_level : Option QualityType := none
  application_id : Option Nat := none
  receiver_queue_size_qm : Option Int := none
  receiver_queue_size_b : Option Int := none
  sender_queue_size : Option Int := none
  shm_size_calc_mode : Option ShmSizeCalculationMode := none
deriving DecidableEq

/-- Modelled from the spec: `tracing_configuration.h` is not under src/. As for
`GlobalConfiguration`, setter calls are modelled as storing `some` and the
default-constructed value has no field set from the buffer. -/
structure TracingConfiguration where
  tracing_enabled : Option Bool := none
  application_instance_id : Option String := none
  trace_filter_config_path : Option String := none
deriving DecidableEq

/-- The fatal outcomes of the loader. Every constructor except `nullDeref`
corresponds to one `LogFatal` diagnostic followed by `std::terminate` in the
source. `nullDeref` models the dereference of an absent schema-required
field, which in the source is an unchecked pointer dereference with no
diagnostic. -/
inductive Fatal where
  | missingVersion
  | someIpBindingType
  | unknownBindingType
  | noShmBindingType (ident : ServiceIdentifier)
  | serviceTypeDeployedTwice
  | invalidInstanceSpecifier
  | missingDeploymentInstances
  | multipleShmBindings (ident : ServiceIdentifier)
  | someIpBindingInstance
  | unknownBindingInstance
  | noShmBindingInstance (ident : ServiceIdentifier)
  | nullDeref
deriving DecidableEq

/-! ### Mappers, translated from the source -/

/-- `ConvertAsilLevel`: `B` maps to ASIL-B, anything else to QM. -/
def ConvertAsilLevel (asil_level : AsilLevel) : QualityType :=
  if asil_level = AsilLevel.B then QualityType.kASIL_B else QualityType.kASIL_QM

/-- The loop body of `ParseEventDeployments` for one non-null event. The
narrowing conversions of the source (`uint16_t` for slots, `uint8_t` for max
subscribers and tracing slots) are written as explicit mods. -/
def ParseEventDeployment (event : WireEvent) : LolaEventInstanceDeployment :=
  { number_of_sample_slots :=
      if event.number_of_sample_slots > 0 then some (event.number_of_sample_slots % 65536) else none
    max_subscribers :=
      if event.max_subscribers > 0 then some (event.max_subscribers % 256) else none
    max_concurrent_allocations := none
    enforce_max_samples := event.enforce_max_samples
    number_of_ipc_tracing_slots := event.number_of_ipc_tracing_slots % 256 }

/-- `ParseEventDeployments`: skip null vector elements, build each deployment,
and `emplace` it keyed by the required event name. -/
def ParseEventDeployments (inst : WireInstance) : List (String × LolaEventInstanceDeployment) :=
  match inst.events with
  | none => []
  | some evs =>
      (evs.filterMap id).foldl (fun m event => emplace m event.event_name (ParseEventDeployment event)) []

/-- The loop body of `ParseFieldDeployments` for one non-null field. -/
def ParseFieldDeployment (field : WireField) : LolaFieldInstanceDeployment :=
  { number_of_sample_slots :=
      if field.number_of_sample_slots > 0 then some (field.number_of_sample_slots % 65536) else none
    max_subscribers :=
      if field.max_subscribers > 0 then some (field.max_subscribers % 256) else none
    max_concurrent_allocations := none
    enforce_max_samples := field.enforce_max_samples
    number_of_ipc_tracing_slots := field.number_of_ipc_tracing_slots % 256 }

/-- `ParseFieldDeployments`. -/
def ParseFieldDeployments (inst : WireInstance) : List (String × LolaFieldInstanceDeployment) :=
  match inst.fields with
  | none => []
  | some fds =>
      (fds.filterMap id).foldl (fun m field => emplace m field.field_name (ParseFieldDeployment field)) []

/-- The loop body of `ParseMethodDeployments` for one non-null method: a queue
size of 0 stays unset, otherwise the `uint8_t`-narrowed value is stored. -/
def ParseMethodDeployment (method : WireMethod) : LolaMethodInstanceDeployment :=
  { queue_size := if method.queue_size > 0 then some (method.queue_size % 256) else none }

/-- `ParseMethodDeployments`. -/
def ParseMethodDeployments (inst : WireInstance) : List (String × LolaMethodInstanceDeployment) :=
  match inst.methods with
  | none => []
  | some mds =>
      (mds.filterMap id).foldl (fun m method => emplace m method.method_name (ParseMethodDeployment method)) []

/-- `ParsePermissions`: one map entry per quality level whose uid vector is
present (a present-but-empty vector yields an entry with an empty list). -/
def ParsePermissions (permissions : Option WirePermissions) : List (QualityType × List Nat) :=
  match permissions with
  | none => []
  | some p =>
      let m : List (QualityType × List Nat) := []
      let m := match p.qm with
        | some qm_users => emplace m QualityType.kASIL_QM qm_users
        | none => m
      match p.b with
      | some b_users => emplace m QualityType.kASIL_B b_users
      | none => m

/-- `CreateLolaServiceInstanceDeployment`, including the `SetMemorySizes`
helper folded in: the three shm sizes are set only when positive, the
instance id only when non-zero. -/
def CreateLolaServiceInstanceDeployment (inst : WireInstance) : LolaServiceInstanceDeployment :=
  { instance_id := if inst.instance_id ≠ 0 then some inst.instance_id else none
    events := ParseEventDeployments inst
    fields := ParseFieldDeployments inst
    methods := ParseMethodDeployments inst
    strict_permissions := decide (inst.permission_checks = PermissionCheckStrategy.STRICT)
    allowed_consumer := ParsePermissions inst.allowed_consumer
    allowed_provider := ParsePermissions inst.allowed_provider
    shared_memory_size := if inst.shm_size > 0 then some inst.shm_size else none
    control_asil_b_memory_size :=
      if inst.control_asil_b_shm_size > 0 then some inst.control_asil_b_shm_size else none
    control_qm_memory_size :=
      if inst.control_qm_shm_size > 0 then some inst.control_qm_shm_size else none }

/-- The SHM branch body of the bindings loop in `CreateServiceTypes`: build
the type-level deployment from one binding; ids carry the `uint8_t` cast. -/
def BuildLolaServiceTypeDeployment (binding : WireBinding) : LolaServiceTypeDeployment :=
  { service_id := binding.service_id
    events :=
      match binding.events with
      | none => []
      | some evs => evs.foldl (fun m event => emplace m event.event_name (event.event_id % 256)) []
    fields :=
      match binding.fields with
      | none => []
      | some fds => fds.foldl (fun m field => emplace m field.field_name (field.field_id % 256)) []
    methods :=
      match binding.methods with
      | none => []
      | some mds => mds.foldl (fun m method => emplace m method.method_name (method.method_id % 256)) [] }

/-- The bindings loop of `CreateServiceTypes`. `binding_info` starts as
`blank`; the first SHM binding is accepted and the loop `break`s (the rest of
the list is not examined); a SOME/IP or unrecognized kind is fatal. -/
def ScanTypeBindings (binding_info : ServiceTypeBindingInformation) :
    List WireBinding → Except Fatal ServiceTypeBindingInformation
  | [] => Except.ok binding_info
  | binding :: _ =>
      match binding.binding with
      | BindingType.SHM => Except.ok (ServiceTypeBindingInformation.lola (BuildLolaServiceTypeDeployment binding))
      | BindingType.SOME_IP => Except.error Fatal.someIpBindingType
      | BindingType.unknown _ => Except.error Fatal.unknownBindingType

/-- The per-entry body of `CreateServiceTypes`: check the version, build the
identifier, scan the bindings, and require a non-blank result. -/
def CreateServiceType (service_type : WireServiceType) :
    Except Fatal (ServiceIdentifier × ServiceTypeDeployment) :=
  match service_type.version with
  | none => Except.error Fatal.missingVersion
  | some version =>
      match ScanTypeBindings ServiceTypeBindingInformation.blank service_type.bindings with
      | Except.error e => Except.error e
      | Except.ok ServiceTypeBindingInformation.blank =>
          Except.error (Fatal.noShmBindingType
            (make_ServiceIdentifierType service_type.service_type_name version.major version.minor))
      | Except.ok (ServiceTypeBindingInformation.lola d) =>
          Except.ok (make_ServiceIdentifierType service_type.service_type_name version.major version.minor,
            { binding_info := ServiceTypeBindingInformation.lola d })

/-- The entry loop of `CreateServiceTypes`: each built pair is inserted with
`emplace`; a failed insertion (identifier already present) is fatal. -/
def CreateServiceTypesGo (acc : List (ServiceIdentifier × ServiceTypeDeployment)) :
    List WireServiceType → Except Fatal (List (ServiceIdentifier × ServiceTypeDeployment))
  | [] => Except.ok acc
  | service_type :: rest =>
      match CreateServiceType service_type with
      | Except.error e => Except.error e
      | Except.ok (service_identifier, service_deployment) =>
          if containsKey acc service_identifier then
            Except.error Fatal.serviceTypeDeployedTwice
          else
            CreateServiceTypesGo (acc ++ [(service_identifier, service_deployment)]) rest

/-- `FlatBufferConfigLoader::CreateServiceTypes`. -/
def CreateServiceTypes (service_types : List WireServiceType) :
    Except Fatal (List (ServiceIdentifier × ServiceTypeDeployment)) :=
  CreateServiceTypesGo [] service_types

/-- The instance-scan loop of `CreateServiceInstances`: find the single SHM
instance record; a second SHM record, any SOME/IP record, or an unrecognized
kind is fatal; no SHM record at all is fatal after the loop. -/
def FindShmInstance (service_identifier : ServiceIdentifier) (shm_instance : Option WireInstance) :
    List WireInstance → Except Fatal WireInstance
  | [] =>
      match shm_instance with
      | none => Except.error (Fatal.noShmBindingInstance service_identifier)
      | some found => Except.ok found
  | inst :: rest =>
      match inst.binding with
      | BindingType.SHM =>
          match shm_instance with
          | some _ => Except.error (Fatal.multipleShmBindings service_identifier)
          | none => FindShmInstance service_identifier (some inst) rest
      | BindingType.SOME_IP => Except.error Fatal.someIpBindingInstance
      | BindingType.unknown _ => Except.error Fatal.unknownBindingInstance

/-- The per-entry body of `CreateServiceInstances`: validate the specifier,
dereference the version (no null check in the source — `nullDeref` models the
unchecked dereference), require a non-empty instances vector, find the single
SHM record, and build the deployment. -/
def CreateServiceInstance (service_instance : WireServiceInstance) :
    Except Fatal (InstanceSpecifier × ServiceInstanceDeployment) :=
  match InstanceSpecifierCreate service_instance.instance_specifier with
  | none => Except.error Fatal.invalidInstanceSpecifier
  | some instance_spec =>
      match service_instance.version with
      | none => Except.error Fatal.nullDeref
      | some version =>
          match service_instance.instances with
          | none => Except.error Fatal.missingDeploymentInstances
          | some insts =>
              if insts.length = 0 then Except.error Fatal.missingDeploymentInstances
              else
                match FindShmInstance
                    (make_ServiceIdentifierType service_instance.service_type_name version.major version.minor)
                    none insts with
                | Except.error e => Except.error e
                | Except.ok shm_instance =>
                    Except.ok (instance_spec,
                      { service_identifier :=
                          make_ServiceIdentifierType service_instance.service_type_name version.major version.minor
                        binding_info := CreateLolaServiceInstanceDeployment shm_instance
                        asil_level := ConvertAsilLevel shm_instance.asil_level
                        instance_specifier := instance_spec })

/-- The entry loop of `CreateServiceInstances`: each built pair is inserted
with `emplace` and the insertion result is not checked. -/
def CreateServiceInstancesGo (acc : List (InstanceSpecifier × ServiceInstanceDeployment)) :
    List WireServiceInstance → Except Fatal (List (InstanceSpecifier × ServiceInstanceDeployment))
  | [] => Except.ok acc
  | service_instance :: rest =>
      match CreateServiceInstance service_instance with
      | Except.error e => Except.error e
      | Except.ok (instance_spec, deployment) =>
          CreateServiceInstancesGo (emplace acc instance_spec deployment) rest

/-- `FlatBufferConfigLoader::CreateServiceInstances`. -/
def CreateServiceInstances (service_instances : List WireServiceInstance) :
    Except Fatal (List (InstanceSpecifier × ServiceInstanceDeployment)) :=
  CreateServiceInstancesGo [] service_instances

/-- `FlatBufferConfigLoader::CreateGlobalConfiguration`. The mode value the
buffer may encode (`shm_size_calc_mode`) is never read; the mode is pinned to
`kSimulation` whenever the section is present. -/
def CreateGlobalConfiguration (global : Option WireGlobal) : GlobalConfiguration :=
  match global with
  | none => {}
  | some g =>
      { process_asil_level := some (ConvertAsilLevel g.asil_level)
        application_id := if g.application_id ≠ 0 then some g.application_id else none
        receiver_queue_size_qm := g.queue_size.map (fun q => (q.qm_receiver : Int))
        receiver_queue_size_b := g.queue_size.map (fun q => (q.b_receiver : Int))
        sender_queue_size := g.queue_size.map (fun q => (q.b_sender : Int))
        shm_size_calc_mode := some ShmSizeCalculationMode.kSimulation }

/-- The fixed default trace-filter-config path of the source. -/
def defaultTraceFilterConfigPath : String := "./etc/mw_com_trace_filter.json"

/-- `FlatBufferConfigLoader::CreateTracingConfiguration`. -/
def CreateTracingConfiguration (tracing : Option WireTracing) : TracingConfiguration :=
  match tracing with
  | none => {}
  | some t =>
      { tracing_enabled := some t.enable
        application_instance_id := some t.application_instance_id
        trace_filter_config_path :=
          match t.trace_filter_config_path with
          | some path => some path
          | none => some defaultTraceFilterConfigPath }

/-- The root configuration aggregate. -/
structure Configuration where
  service_types : List (ServiceIdentifier × ServiceTypeDeployment)
  service_instances : List (InstanceSpecifier × ServiceInstanceDeployment)
  global_configuration : GlobalConfiguration
  tracing_configuration : TracingConfiguration
deriving DecidableEq

/-- `FlatBufferConfigLoader::CreateConfiguration` after a verified buffer has
been mapped: compose the four section mappers. -/
def CreateConfiguration (com_config : WireComConfiguration) : Except Fatal Configuration :=
  match CreateServiceTypes com_config.service_types with
  | Except.error e => Except.error e
  | Except.ok types =>
      match CreateServiceInstances com_config.service_instances with
      | Except.error e => Except.error e
      | Except.ok insts =>
          Except.ok
            { service_types := types
              service_instances := insts
              global_configuration := CreateGlobalConfiguration com_config.global
              tracing_configuration := CreateTracingConfiguration com_config.tracing }

/-! ### Lemmas about the association-list operations -/

theorem or_none_eq {o : Option β} : o.or none = o := by cases o <;> rfl

theorem containsKey_iff_mem [DecidableEq α] (m : List (α × β)) (k : α) :
    containsKey m k = true ↔ k ∈ keysOf m := by
  induction m with
  | nil => simp [containsKey, keysOf]
  | cons p rest ih =>
      by_cases h : p.1 = k
      · simp [containsKey, keysOf, h]
      · rw [show containsKey (p :: rest) k = containsKey rest k by simp [containsKey, h]]
        rw [ih]
        constructor
        · intro hm; exact List.mem_cons_of_mem _ hm
        · intro hm
          rcases List.mem_cons.mp hm with h1 | h1
          · exact absurd h1.symm h
          · exact h1

theorem lookupKey_isSome_iff [DecidableEq α] (m : List (α × β)) (k : α) :
    (lookupKey m k).isSome = true ↔ k ∈ keysOf m := by
  induction m with
  | nil => simp [lookupKey, keysOf]
  | cons p rest ih =>
      by_cases h : p.1 = k
      · simp [lookupKey, keysOf, h]
      · rw [show lookupKey (p :: rest) k = lookupKey rest k by simp [lookupKey, h]]
        rw [ih]
        constructor
        · intro hm; exact List.mem_cons_of_mem _ hm
        · intro hm
          rcases List.mem_cons.mp hm with h1 | h1
          · exact absurd h1.symm h
          · exact h1

theorem lookupKey_append [DecidableEq α] (m1 m2 : List (α × β)) (k : α) :
    lookupKey (m1 ++ m2) k = (lookupKey m1 k).or (lookupKey m2 k) := by
  induction m1 with
  | nil => simp [lookupKey, Option.or]
  | cons p rest ih => by_cases h : p.1 = k <;> simp [lookupKey, h, ih, Option.or]

theorem lookupKey_emplace [DecidableEq α] (m : List (α × β)) (k k2 : α) (v : β) :
    lookupKey (emplace m k v) k2 =
      (lookupKey m k2).or (if k2 = k then some v else none) := by
  unfold emplace
  by_cases hc : containsKey m k
  · rw [if_pos hc]
    by_cases hk : k2 = k
    · subst hk
      have hmem : k2 ∈ keysOf m := (containsKey_iff_mem m k2).mp hc
      have hs : (lookupKey m k2).isSome = true := (lookupKey_isSome_iff m k2).mpr hmem
      cases hl : lookupKey m k2 with
      | none => rw [hl] at hs; simp at hs
      | some b => simp
    · rw [if_neg hk, or_none_eq]
  · rw [if_neg hc, lookupKey_append]
    have hsingle : lookupKey [(k, v)] k2 = if k2 = k then some v else none := by
      by_cases hk : k2 = k
      · simp [lookupKey, hk]
      · have hk2 : ¬ k = k2 := fun h => hk h.symm
        simp [lookupKey, hk, hk2]
    rw [hsingle]

theorem keysOf_append (m1 m2 : List (α × β)) :
    keysOf (m1 ++ m2) = keysOf m1 ++ keysOf m2 := by
  simp [keysOf]

theorem keysOf_emplace_nodup [DecidableEq α] (m : List (α × β)) (k : α) (v : β)
    (h : (keysOf m).Nodup) : (keysOf (emplace m k v)).Nodup := by
  unfold emplace
  by_cases hc : containsKey m k
  · simpa [hc]
  · rw [if_neg hc, keysOf_append]
    have hnm : k ∉ keysOf m := fun hmem => hc ((containsKey_iff_mem m k).mpr hmem)
    simp [keysOf, List.nodup_append]
    exact ⟨by simpa [keysOf] using h, by simpa [keysOf] using hnm⟩

/-- First-wins characterization of an `emplace` fold: looking up a key in the
result of folding `emplace` over a list finds the accumulator's entry first,
then the first list element with that key. -/
theorem lookupKey_foldl_emplace {γ : Type} [DecidableEq α] (key : γ → α) (val : γ → β)
    (l : List γ) (acc : List (α × β)) (k : α) :
    lookupKey (l.foldl (fun m e => emplace m (key e) (val e)) acc) k
      = (lookupKey acc k).or ((l.find? (fun e => decide (key e = k))).map val) := by
  induction l generalizing acc with
  | nil => rw [List.foldl_nil, List.find?_nil, Option.map_none', or_none_eq]
  | cons e rest ih =>
      rw [List.foldl_cons, ih, lookupKey_emplace]
      by_cases h : key e = k
      · rw [List.find?_cons_of_pos _ (by simpa using h), Option.map_some']
        rw [if_pos h.symm]
        cases hl : lookupKey acc k with
        | none =>
            cases hr : (rest.find? fun e => decide (key e = k)).map val <;>
              simp [Option.or]
        | some b => simp [Option.or]
      · rw [List.find?_cons_of_neg _ (by simpa using h), if_neg (fun hk => h hk.symm),
          or_none_eq]

/-- Folding `emplace` over a list preserves key uniqueness. -/
theorem keysOf_foldl_emplace_nodup {γ : Type} [DecidableEq α] (key : γ → α) (val : γ → β)
    (l : List γ) (acc : List (α × β)) (h : (keysOf acc).Nodup) :
    (keysOf (l.foldl (fun m e => emplace m (key e) (val e)) acc)).Nodup := by
  induction l generalizing acc with
  | nil => simpa
  | cons e rest ih => exact ih _ (keysOf_emplace_nodup _ _ _ h)

/-! ### Derived views and mapper-level lemmas -/

/-- Successful-result test for `Except`. -/
def isOk {ε σ : Type} : Except ε σ → Bool
  | Except.ok _ => true
  | Except.error _ => false

theorem toOption_ok {ε σ : Type} (a : σ) : (Except.ok a : Except ε σ).toOption = some a := rfl

theorem toOption_error {ε σ : Type} (e : ε) : (Except.error e : Except ε σ).toOption = none := rfl

/-- The successfully mapped (specifier, deployment) pairs of a
service-instances section, in input order, before map insertion. -/
def InstanceEntries (l : List WireServiceInstance) :
    List (InstanceSpecifier × ServiceInstanceDeployment) :=
  l.filterMap (fun si => (CreateServiceInstance si).toOption)

/-- The deployment built from the first entry of the service-instances section
whose instance-specifier string is `s`. -/
def FirstEntryFor (l : List WireServiceInstance) (s : String) :
    Option ServiceInstanceDeployment :=
  (l.find? (fun e => decide (e.instance_specifier = s))).bind
    (fun e => (CreateServiceInstance e).toOption.map Prod.snd)

/-- The successfully mapped (identifier, deployment) pairs of a service-types
section, in input order, before map insertion. -/
def TypeEntries (l : List WireServiceType) :
    List (ServiceIdentifier × ServiceTypeDeployment) :=
  l.filterMap (fun st => (CreateServiceType st).toOption)

theorem CreateServiceInstancesGo_ok_lookup (l : List WireServiceInstance) :
    ∀ (acc m : List (InstanceSpecifier × ServiceInstanceDeployment)),
      CreateServiceInstancesGo acc l = Except.ok m → ∀ k,
      lookupKey m k = (lookupKey acc k).or (lookupKey (InstanceEntries l) k) := by
  induction l with
  | nil =>
      intro acc m h k
      have hacc : acc = m := by simpa [CreateServiceInstancesGo] using h
      subst hacc
      simp [InstanceEntries, lookupKey, or_none_eq]
  | cons si rest ih =>
      intro acc m h k
      cases hc : CreateServiceInstance si with
      | error e =>
          simp only [CreateServiceInstancesGo, hc] at h
          exact Except.noConfusion h
      | ok p =>
          obtain ⟨s, d⟩ := p
          simp only [CreateServiceInstancesGo, hc] at h
          have hm := ih (emplace acc s d) m h k
          rw [hm, lookupKey_emplace]
          have hent : InstanceEntries (si :: rest) = (s, d) :: InstanceEntries rest := by
            simp [InstanceEntries, List.filterMap_cons, hc, toOption_ok]
          rw [hent]
          show _ = (lookupKey acc k).or (if s = k then some d else lookupKey (InstanceEntries rest) k)
          by_cases hk : k = s
          · subst hk
            rw [if_pos rfl, if_pos rfl]
            cases lookupKey acc k <;> simp [Option.or]
          · rw [if_neg hk, or_none_eq, if_neg (fun h2 => hk h2.symm)]

theorem CreateServiceInstancesGo_ok_all (l : List WireServiceInstance) :
    ∀ (acc m : List (InstanceSpecifier × ServiceInstanceDeployment)),
      CreateServiceInstancesGo acc l = Except.ok m →
      ∀ si ∈ l, isOk (CreateServiceInstance si) = true := by
  induction l with
  | nil => intro acc m _ si hmem; cases hmem
  | cons si0 rest ih =>
      intro acc m h si hmem
      cases hc : CreateServiceInstance si0 with
      | error e =>
          simp only [CreateServiceInstancesGo, hc] at h
          exact Except.noConfusion h
      | ok p =>
          obtain ⟨s, d⟩ := p
          simp only [CreateServiceInstancesGo, hc] at h
          rcases List.mem_cons.mp hmem with h1 | h1
          · subst h1; simp [isOk, hc]
          · exact ih (emplace acc s d) m h si h1

theorem CreateServiceInstancesGo_ok_nodup (l : List WireServiceInstance) :
    ∀ (acc m : List (InstanceSpecifier × ServiceInstanceDeployment)),
      CreateServiceInstancesGo acc l = Except.ok m →
      (keysOf acc).Nodup → (keysOf m).Nodup := by
  induction l with
  | nil =>
      intro acc m h hacc
      have : acc = m := by simpa [CreateServiceInstancesGo] using h
      subst this; exact hacc
  | cons si rest ih =>
      intro acc m h hacc
      cases hc : CreateServiceInstance si with
      | error e =>
          simp only [CreateServiceInstancesGo, hc] at h
          exact Except.noConfusion h
      | ok p =>
          obtain ⟨s, d⟩ := p
          simp only [CreateServiceInstancesGo, hc] at h
          exact ih _ m h (keysOf_emplace_nodup acc s d hacc)

theorem CreateServiceInstance_ok_fst (si : WireServiceInstance)
    (p : InstanceSpecifier × ServiceInstanceDeployment)
    (h : CreateServiceInstance si = Except.ok p) :
    p.1 = InstanceSpecifier.mk si.instance_specifier := by
  cases hc : InstanceSpecifierCreate si.instance_specifier with
  | none =>
      simp only [CreateServiceInstance, hc] at h
      exact Except.noConfusion h
  | some sp0 =>
      have hsp0 : sp0 = InstanceSpecifier.mk si.instance_specifier := by
        by_cases hs : si.instance_specifier = ("")
        · rw [InstanceSpecifierCreate, if_pos hs] at hc; cases hc
        · rw [InstanceSpecifierCreate, if_neg hs] at hc
          injection hc with h2
          exact h2.symm
      cases hv : si.version with
      | none =>
          simp only [CreateServiceInstance, hc, hv] at h
          exact Except.noConfusion h
      | some v =>
          cases hi : si.instances with
          | none =>
              simp only [CreateServiceInstance, hc, hv, hi] at h
              exact Except.noConfusion h
          | some insts =>
              by_cases hlen : insts.length = 0
              · simp only [CreateServiceInstance, hc, hv, hi, if_pos hlen] at h
                exact Except.noConfusion h
              · cases hf : FindShmInstance
                    (make_ServiceIdentifierType si.service_type_name v.major v.minor)
                    none insts with
                | error e =>
                    simp only [CreateServiceInstance, hc, hv, hi, if_neg hlen, hf] at h
                    exact Except.noConfusion h
                | ok shm =>
                    simp only [CreateServiceInstance, hc, hv, hi, if_neg hlen, hf] at h
                    injection h with h2
                    rw [← h2, hsp0]

theorem InstanceEntries_lookup_eq (l : List WireServiceInstance)
    (hall : ∀ si ∈ l, isOk (CreateServiceInstance si) = true) (s : String) :
    lookupKey (InstanceEntries l) (InstanceSpecifier.mk s) = FirstEntryFor l s := by
  induction l with
  | nil => simp [InstanceEntries, FirstEntryFor, lookupKey]
  | cons si rest ih =>
      have hsi := hall si (List.mem_cons_self si rest)
      cases hc : CreateServiceInstance si with
      | error e => rw [hc] at hsi; simp [isOk] at hsi
      | ok p =>
          obtain ⟨sp, d⟩ := p
          have hfst : sp = InstanceSpecifier.mk si.instance_specifier := by
            have := CreateServiceInstance_ok_fst si (sp, d) hc
            simpa using this
          have hent : InstanceEntries (si :: rest) = (sp, d) :: InstanceEntries rest := by
            simp [InstanceEntries, List.filterMap_cons, hc, toOption_ok]
          rw [hent]
          by_cases hs : si.instance_specifier = s
          · rw [FirstEntryFor, List.find?_cons_of_pos _ (by simpa using hs)]
            have hsp : sp = InstanceSpecifier.mk s := by rw [hfst, hs]
            simp [lookupKey, hsp, hc, toOption_ok]
          · rw [FirstEntryFor, List.find?_cons_of_neg _ (by simpa using hs)]
            have hne : ¬ (sp, d).1 = InstanceSpecifier.mk s := by
              rw [hfst]
              simp [InstanceSpecifier.mk.injEq]
              exact hs
            rw [show lookupKey ((sp, d) :: InstanceEntries rest) (InstanceSpecifier.mk s)
                  = lookupKey (InstanceEntries rest) (InstanceSpecifier.mk s) by
                simp [lookupKey, hne]]
            rw [ih (fun si2 h2 => hall si2 (List.mem_cons_of_mem _ h2))]
            rfl

theorem TypeEntries_length (l : List WireServiceType)
    (hall : ∀ st ∈ l, isOk (CreateServiceType st) = true) :
    (TypeEntries l).length = l.length := by
  induction l with
  | nil => rfl
  | cons st rest ih =>
      have hst := hall st (List.mem_cons_self st rest)
      cases hc : CreateServiceType st with
      | error e => rw [hc] at hst; simp [isOk] at hst
      | ok p =>
          simp only [TypeEntries, List.filterMap_cons, hc, toOption_ok, List.length_cons]
          have := ih (fun st2 h2 => hall st2 (List.mem_cons_of_mem _ h2))
          simp only [TypeEntries] at this
          rw [this]

theorem CreateServiceTypesGo_spec (l : List WireServiceType) :
    ∀ acc : List (ServiceIdentifier × ServiceTypeDeployment),
      (∀ st ∈ l, isOk (CreateServiceType st) = true) → (keysOf acc).Nodup →
      CreateServiceTypesGo acc l =
        if (keysOf acc ++ keysOf (TypeEntries l)).Nodup then Except.ok (acc ++ TypeEntries l)
        else Except.error Fatal.serviceTypeDeployedTwice := by
  induction l with
  | nil =>
      intro acc _ hacc
      have hcond : (keysOf acc ++ keysOf (TypeEntries [])).Nodup := by
        simpa [TypeEntries, keysOf] using hacc
      rw [if_pos hcond]
      simp [CreateServiceTypesGo, TypeEntries]
  | cons st rest ih =>
      intro acc hall hacc
      have hst := hall st (List.mem_cons_self st rest)
      cases hc : CreateServiceType st with
      | error e => rw [hc] at hst; simp [isOk] at hst
      | ok p =>
          obtain ⟨ident, dep⟩ := p
          simp only [CreateServiceTypesGo, hc]
          have hent : TypeEntries (st :: rest) = (ident, dep) :: TypeEntries rest := by
            simp [TypeEntries, List.filterMap_cons, hc, toOption_ok]
          rw [hent]
          by_cases hck : containsKey acc ident
          · rw [if_pos hck]
            have hmem : ident ∈ keysOf acc := (containsKey_iff_mem _ _).mp hck
            have hnot : ¬ (keysOf acc ++ keysOf ((ident, dep) :: TypeEntries rest)).Nodup := by
              intro hnd
              rw [List.nodup_append] at hnd
              exact hnd.2.2 hmem (by simp [keysOf])
            rw [if_neg hnot]
          · rw [if_neg hck]
            have hniacc : ident ∉ keysOf acc := fun hm => hck ((containsKey_iff_mem _ _).mpr hm)
            have hacc2 : (keysOf (acc ++ [(ident, dep)])).Nodup := by
              rw [keysOf_append, List.nodup_append]
              refine ⟨hacc, by simp [keysOf], ?_⟩
              intro a ha hmem
              rw [show keysOf [(ident, dep)] = [ident] from rfl] at hmem
              rcases List.mem_singleton.mp hmem with rfl
              exact hniacc ha
            have hrec := ih (acc ++ [(ident, dep)])
              (fun st2 h2 => hall st2 (List.mem_cons_of_mem _ h2)) hacc2
            rw [hrec, keysOf_append]
            have e1 : (keysOf acc ++ keysOf [(ident, dep)]) ++ keysOf (TypeEntries rest)
                = keysOf acc ++ keysOf ((ident, dep) :: TypeEntries rest) := by
              simp [keysOf]
            have e2 : (acc ++ [(ident, dep)]) ++ TypeEntries rest
                = acc ++ ((ident, dep) :: TypeEntries rest) := by
              simp
            rw [e1, e2]

theorem FindShmInstance_some_ok (ident : ServiceIdentifier) (x : WireInstance) :
    ∀ (l : List WireInstance) (i : WireInstance),
      FindShmInstance ident (some x) l = Except.ok i → l = [] ∧ i = x := by
  intro l
  cases l with
  | nil =>
      intro i h
      simp only [FindShmInstance] at h
      injection h with h2
      exact ⟨rfl, h2.symm⟩
  | cons inst rest =>
      intro i h
      cases hb : inst.binding <;> simp only [FindShmInstance, hb] at h <;>
        exact Except.noConfusion h

theorem FindShmInstance_none_ok (ident : ServiceIdentifier) :
    ∀ (l : List WireInstance) (i : WireInstance),
      FindShmInstance ident none l = Except.ok i →
      l = [i] ∧ i.binding = BindingType.SHM := by
  intro l i h
  cases l with
  | nil =>
      simp only [FindShmInstance] at h
      exact Except.noConfusion h
  | cons inst rest =>
      cases hb : inst.binding with
      | SHM =>
          simp only [FindShmInstance, hb] at h
          obtain ⟨hrest, hix⟩ := FindShmInstance_some_ok ident inst rest i h
          subst hrest
          rw [hix]
          exact ⟨rfl, hb⟩
      | SOME_IP =>
          simp only [FindShmInstance, hb] at h
          exact Except.noConfusion h
      | unknown raw =>
          simp only [FindShmInstance, hb] at h
          exact Except.noConfusion h

/-- The zero-sentinel pattern with a value-preserving narrowing: when the raw
value is below the narrowing modulus, `raw % n` is `raw` itself. -/
theorem sentinel_mod_eq (x n : Nat) (h : x < n) :
    (if x > 0 then some (x % n) else none) = if x = 0 then none else some x := by
  rcases Nat.eq_zero_or_pos x with h0 | h0
  · subst h0; simp
  · rw [if_pos h0, if_neg (Nat.pos_iff_ne_zero.mp h0), Nat.mod_eq_of_lt h]

/-- The zero-sentinel pattern without narrowing. -/
theorem sentinel_eq (x : Nat) :
    (if x > 0 then some x else none) = if x = 0 then none else some x := by
  rcases Nat.eq_zero_or_pos x with h0 | h0
  · subst h0; simp
  · rw [if_pos h0, if_neg (Nat.pos_iff_ne_zero.mp h0)]

/-- The zero-sentinel pattern written with a disequality test. -/
theorem sentinel_ne_eq (x : Nat) :
    (if x ≠ 0 then some x else none) = if x = 0 then none else some x := by
  by_cases h0 : x = 0
  · subst h0; simp
  · simp [h0]

/-! ### Concrete fixtures used by counterexamples and witnesses -/

/-- A minimal SHM instance record with instance id 1. -/
def exInstA : WireInstance :=
  { binding := BindingType.SHM
    asil_level := AsilLevel.QM
    instance_id := 1
    events := none
    fields := none
    methods := none
    allowed_consumer := none
    allowed_provider := none
    permission_checks := PermissionCheckStrategy.RELAXED
    shm_size := 0
    control_asil_b_shm_size := 0
    control_qm_shm_size := 0 }

/-- The same record with instance id 2, to make the two deployments differ. -/
def exInstB : WireInstance := { exInstA with instance_id := 2 }

/-- A service-instance entry with specifier string abc carrying `exInstA`. -/
def exEntryA : WireServiceInstance :=
  { instance_specifier := "abc"
    service_type_name := "S"
    version := some { major := 1, minor := 0 }
    instances := some [exInstA] }

/-- The same entry (same specifier string) carrying `exInstB` instead. -/
def exEntryB : WireServiceInstance := { exEntryA with instances := some [exInstB] }

/-- A service-instance entry whose `version` sub-object is absent. -/
def exEntryNoVersion : WireServiceInstance := { exEntryA with version := none }

/-! ### Claim C1 -/

/-- Claim C1, counterexample: with two service-instance entries carrying the
same (valid) specifier string abc but different deployments, the output
mapping holds the deployment built from the FIRST entry, not (as the claim
states) the one built from the last entry: `emplace` keeps the existing entry
instead of overwriting it. -/
theorem C1_counterexample :
    ((CreateServiceInstances [exEntryA, exEntryB]).toOption.map
        (fun m => lookupKey m (InstanceSpecifier.mk ("abc")))
      = some ((CreateServiceInstance exEntryA).toOption.map Prod.snd))
    ∧ ((CreateServiceInstances [exEntryA, exEntryB]).toOption.map
        (fun m => lookupKey m (InstanceSpecifier.mk ("abc")))
      ≠ some ((CreateServiceInstance exEntryB).toOption.map Prod.snd)) := by
  constructor
  · decide
  · decide

/-- Claim C1 (amended): when two entries of the service-instances section
produce the same InstanceSpecifier key, the returned mapping contains exactly
one entry for that specifier, and its ServiceInstanceDeployment is the one
built from the FIRST such input entry — later duplicates are silently dropped
by `emplace`, not overwritten. -/
theorem C1_amended (l : List WireServiceInstance)
    (m : List (InstanceSpecifier × ServiceInstanceDeployment)) (s : String) (i j : Nat)
    (hi : i < l.length) (hj : j < l.length) (_hij : i ≠ j)
    (hsi : (l.get ⟨i, hi⟩).instance_specifier = s)
    (_hsj : (l.get ⟨j, hj⟩).instance_specifier = s)
    (hok : CreateServiceInstances l = Except.ok m) :
    (keysOf m).count (InstanceSpecifier.mk s) = 1 ∧
    lookupKey m (InstanceSpecifier.mk s) = FirstEntryFor l s := by
  have hall : ∀ si ∈ l, isOk (CreateServiceInstance si) = true :=
    CreateServiceInstancesGo_ok_all l [] m hok
  have hlk : lookupKey m (InstanceSpecifier.mk s) = FirstEntryFor l s := by
    have h1 := CreateServiceInstancesGo_ok_lookup l [] m hok (InstanceSpecifier.mk s)
    rw [h1]
    rw [show lookupKey ([] : List (InstanceSpecifier × ServiceInstanceDeployment))
        (InstanceSpecifier.mk s) = none from rfl]
    rw [show (none : Option ServiceInstanceDeployment).or
        (lookupKey (InstanceEntries l) (InstanceSpecifier.mk s))
        = lookupKey (InstanceEntries l) (InstanceSpecifier.mk s) from rfl]
    exact InstanceEntries_lookup_eq l hall s
  refine ⟨?_, hlk⟩
  have hnd : (keysOf m).Nodup :=
    CreateServiceInstancesGo_ok_nodup l [] m hok (by simp [keysOf])
  have hfind : ∃ e, l.find? (fun e => decide (e.instance_specifier = s)) = some e := by
    have hsome : (l.find? (fun e => decide (e.instance_specifier = s))).isSome := by
      rw [List.find?_isSome]
      exact ⟨l.get ⟨i, hi⟩, List.get_mem l i hi, by simpa using hsi⟩
    exact Option.isSome_iff_exists.mp hsome
  obtain ⟨e, he⟩ := hfind
  have hmem_e : e ∈ l := List.mem_of_find?_eq_some he
  have hoke := hall e hmem_e
  cases hce : CreateServiceInstance e with
  | error er => rw [hce] at hoke; simp [isOk] at hoke
  | ok p =>
      have hfe : FirstEntryFor l s = some p.2 := by
        simp [FirstEntryFor, he, hce, toOption_ok]
      have hsome2 : (lookupKey m (InstanceSpecifier.mk s)).isSome = true := by
        rw [hlk, hfe]; rfl
      have hmemk : InstanceSpecifier.mk s ∈ keysOf m :=
        (lookupKey_isSome_iff _ _).mp hsome2
      exact List.count_eq_one_of_mem hnd hmemk

/-- The mapping produced by loading the two duplicate-specifier entries. -/
def exMap : List (InstanceSpecifier × ServiceInstanceDeployment) :=
  [(InstanceSpecifier.mk ("abc"),
    { service_identifier := make_ServiceIdentifierType ("S") 1 0
      binding_info := CreateLolaServiceInstanceDeployment exInstA
      asil_level := QualityType.kASIL_QM
      instance_specifier := InstanceSpecifier.mk ("abc") })]

/-- Claim C1 witness: the amended theorem applied to the concrete
duplicate-specifier input. -/
theorem C1_amended_witness :
    (keysOf exMap).count (InstanceSpecifier.mk ("abc")) = 1 ∧
    lookupKey exMap (InstanceSpecifier.mk ("abc")) = FirstEntryFor [exEntryA, exEntryB] ("abc") :=
  C1_amended [exEntryA, exEntryB] exMap ("abc") 0 1 (by decide) (by decide) (by decide)
    (by decide) (by decide) (by rfl)

/-! ### Claim C4 -/

/-- Claim C4, counterexample: a service-instance entry with a valid specifier
and an absent version sub-object does not reach a diagnosed missing-version
fatal branch — the mapper dereferences the absent field (modelled as the
`nullDeref` outcome, which is not the `missingVersion` diagnostic). -/
theorem C4_counterexample :
    CreateServiceInstances [exEntryNoVersion] = Except.error Fatal.nullDeref ∧
    Fatal.nullDeref ≠ Fatal.missingVersion := by
  constructor
  · rfl
  · decide

/-- A service-type entry whose `version` sub-object is absent. -/
def exTypeNoVersion : WireServiceType :=
  { service_type_name := "T", version := none, bindings := [] }

/-- Claim C4 (amended): the service-instances mapper has no missing-version
error branch — for an entry with a valid specifier and an absent version it
dereferences the schema-required field unchecked (`nullDeref`); only the
service-types mapper checks the version and reports the `missingVersion`
fatal diagnostic. -/
theorem C4_amended (si : WireServiceInstance) (sp : InstanceSpecifier)
    (hsp : InstanceSpecifierCreate si.instance_specifier = some sp)
    (hv : si.version = none)
    (st : WireServiceType) (hv2 : st.version = none) :
    CreateServiceInstance si = Except.error Fatal.nullDeref ∧
    CreateServiceType st = Except.error Fatal.missingVersion := by
  constructor
  · simp only [CreateServiceInstance, hsp, hv]
  · simp only [CreateServiceType, hv2]

/-- Claim C4 witness: the amended theorem applied to the concrete entries
without version sub-objects. -/
theorem C4_amended_witness :
    CreateServiceInstance exEntryNoVersion = Except.error Fatal.nullDeref ∧
    CreateServiceType exTypeNoVersion = Except.error Fatal.missingVersion :=
  C4_amended exEntryNoVersion (InstanceSpecifier.mk ("abc")) (by decide) (by decide)
    exTypeNoVersion (by decide)

/-! ### Claim C5 -/

/-- Claim C5: for a service-instance entry with a valid specifier and a
present version, the load of that entry succeeds exactly when its
instance-binding record list is present and contains exactly one SHM-kind
record and no record of any other kind; in every other case (absent or empty
list, zero SHM records, two or more SHM records, any SOME/IP or unrecognized
record) it is fatal. -/
theorem C5 (si : WireServiceInstance) (sp : InstanceSpecifier) (v : Version)
    (hsp : InstanceSpecifierCreate si.instance_specifier = some sp)
    (hv : si.version = some v) :
    isOk (CreateServiceInstance si) = true ↔
      ∃ inst, si.instances = some [inst] ∧ inst.binding = BindingType.SHM := by
  constructor
  · intro h
    cases hi : si.instances with
    | none =>
        simp only [CreateServiceInstance, hsp, hv, hi] at h
        simp [isOk] at h
    | some insts =>
        by_cases hlen : insts.length = 0
        · simp only [CreateServiceInstance, hsp, hv, hi, if_pos hlen] at h
          simp [isOk] at h
        · cases hf : FindShmInstance
              (make_ServiceIdentifierType si.service_type_name v.major v.minor)
              none insts with
          | error e =>
              simp only [CreateServiceInstance, hsp, hv, hi, if_neg hlen, hf] at h
              simp [isOk] at h
          | ok inst =>
              obtain ⟨hl, hb⟩ := FindShmInstance_none_ok _ insts inst hf
              exact ⟨inst, by rw [hl], hb⟩
  · rintro ⟨inst, hi, hb⟩
    have hf : FindShmInstance
        (make_ServiceIdentifierType si.service_type_name v.major v.minor)
        none [inst] = Except.ok inst := by
      simp [FindShmInstance, hb]
    simp only [CreateServiceInstance, hsp, hv, hi]
    rw [if_neg (by simp)]
    rw [hf]
    rfl

/-- Claim C5 witness: the theorem applied to the concrete single-SHM entry. -/
theorem C5_witness : isOk (CreateServiceInstance exEntryA) = true :=
  (C5 exEntryA (InstanceSpecifier.mk ("abc")) { major := 1, minor := 0 }
      (by decide) (by decide)).mpr ⟨exInstA, by decide, by decide⟩

/-! ### Claim C2 -/

/-- An SHM binding with no entity vectors. -/
def exShmBinding : WireBinding :=
  { binding := BindingType.SHM, service_id := 7, events := none, fields := none, methods := none }

/-- A SOME/IP binding. -/
def exSomeIpBinding : WireBinding :=
  { binding := BindingType.SOME_IP, service_id := 9, events := none, fields := none, methods := none }

/-- A service type whose bindings list has the SOME/IP binding after an SHM
binding. -/
def exTypeShmThenSomeIp : WireServiceType :=
  { service_type_name := "S"
    version := some { major := 1, minor := 0 }
    bindings := [exShmBinding, exSomeIpBinding] }

/-- A service type with only a SOME/IP binding. -/
def exTypeSomeIpOnly : WireServiceType :=
  { service_type_name := "T"
    version := some { major := 1, minor := 0 }
    bindings := [exSomeIpBinding] }

/-- Claim C2, counterexample: a SOME/IP binding appearing AFTER an SHM binding
in the same bindings list is not fatal — the scan `break`s at the first SHM
binding, so the load succeeds and produces the same result as if the SOME/IP
binding were not there. -/
theorem C2_counterexample :
    isOk (CreateServiceTypes [exTypeShmThenSomeIp]) = true
    ∧ (CreateServiceTypes [exTypeShmThenSomeIp]).toOption
      = (CreateServiceTypes
          [{ exTypeShmThenSomeIp with bindings := [exShmBinding] }]).toOption := by
  constructor
  · decide
  · decide

/-- Claim C2 (amended): the bindings scan of the Service-Type Mapper stops at
the first SHM-kind binding. A SOME/IP-kind or unrecognized binding is fatal
when every binding before it is non-SHM (that is, when it occurs before the
first SHM binding); when the list starts with an SHM binding, the entry is
mapped from that binding and the rest of the list is not examined; and when
the list contains no SHM-kind binding at all, the load of the entry is
fatal. -/
theorem C2_amended (st : WireServiceType) (v : Version) (hv : st.version = some v) :
    (∀ pre b suf, st.bindings = pre ++ b :: suf →
        (∀ p ∈ pre, p.binding ≠ BindingType.SHM) → b.binding ≠ BindingType.SHM →
        isOk (CreateServiceType st) = false)
    ∧ (∀ b rest, st.bindings = b :: rest → b.binding = BindingType.SHM →
        CreateServiceType st = Except.ok
          (make_ServiceIdentifierType st.service_type_name v.major v.minor,
            { binding_info :=
                ServiceTypeBindingInformation.lola (BuildLolaServiceTypeDeployment b) }))
    ∧ ((∀ b ∈ st.bindings, b.binding ≠ BindingType.SHM) →
        isOk (CreateServiceType st) = false) := by
  have hhead : ∀ hd tl, st.bindings = hd :: tl → hd.binding ≠ BindingType.SHM →
      isOk (CreateServiceType st) = false := by
    intro hd tl hl hb
    cases hb2 : hd.binding with
    | SHM => exact absurd hb2 hb
    | SOME_IP =>
        simp only [CreateServiceType, hv, hl, ScanTypeBindings, hb2]
        rfl
    | unknown raw =>
        simp only [CreateServiceType, hv, hl, ScanTypeBindings, hb2]
        rfl
  refine ⟨?_, ?_, ?_⟩
  · intro pre b suf hl hpre hb
    cases pre with
    | nil => exact hhead b suf hl hb
    | cons p pre2 =>
        exact hhead p (pre2 ++ b :: suf) (by simpa using hl)
          (hpre p (List.mem_cons_self p pre2))
  · intro b rest hl hb
    simp only [CreateServiceType, hv, hl, ScanTypeBindings, hb]
  · intro hall
    cases hl : st.bindings with
    | nil =>
        simp only [CreateServiceType, hv, hl, ScanTypeBindings]
        rfl
    | cons b rest =>
        exact hhead b rest hl (hall b (by rw [hl]; exact List.mem_cons_self b rest))

/-- Claim C2 witness: the amended theorem applied to the concrete service
types — the SHM-then-SOME/IP list is mapped from its first (SHM) binding and
the SOME/IP-only list is fatal. -/
theorem C2_amended_witness :
    CreateServiceType exTypeShmThenSomeIp = Except.ok
      (make_ServiceIdentifierType ("S") 1 0,
        { binding_info :=
            ServiceTypeBindingInformation.lola (BuildLolaServiceTypeDeployment exShmBinding) })
    ∧ isOk (CreateServiceType exTypeSomeIpOnly) = false :=
  ⟨(C2_amended exTypeShmThenSomeIp { major := 1, minor := 0 } rfl).2.1
      exShmBinding [exSomeIpBinding] rfl rfl,
   (C2_amended exTypeSomeIpOnly { major := 1, minor := 0 } rfl).2.2 (by decide)⟩

/-! ### Claim C6 -/

/-- Claim C6: inserting a (ServiceIdentifier → ServiceTypeDeployment) pair
whose exact (name, major, minor) identifier is already present in the output
mapping is fatal (service type deployed twice); when the successfully built
entries all have pairwise distinct identifiers, the load returns the mapping
with exactly one entry per input entry. -/
theorem C6 (l : List WireServiceType)
    (hall : ∀ st ∈ l, isOk (CreateServiceType st) = true) :
    (CreateServiceTypes l =
      if (keysOf (TypeEntries l)).Nodup then Except.ok (TypeEntries l)
      else Except.error Fatal.serviceTypeDeployedTwice)
    ∧ (TypeEntries l).length = l.length := by
  constructor
  · have h := CreateServiceTypesGo_spec l [] hall (by simp [keysOf])
    simpa [CreateServiceTypes, keysOf] using h
  · exact TypeEntries_length l hall

/-- A service type named A with a single SHM binding. -/
def exTypeA : WireServiceType :=
  { service_type_name := "A", version := some { major := 1, minor := 0 },
    bindings := [exShmBinding] }

/-- A service type named B with a single SHM binding. -/
def exTypeB : WireServiceType :=
  { service_type_name := "B", version := some { major := 1, minor := 0 },
    bindings := [exShmBinding] }

/-- Claim C6 witness: the theorem applied to a two-entry input with distinct
identifiers and to a two-entry input sharing one identifier. -/
theorem C6_witness :
    ((CreateServiceTypes [exTypeA, exTypeB] =
      if (keysOf (TypeEntries [exTypeA, exTypeB])).Nodup
      then Except.ok (TypeEntries [exTypeA, exTypeB])
      else Except.error Fatal.serviceTypeDeployedTwice)
    ∧ (TypeEntries [exTypeA, exTypeB]).length = [exTypeA, exTypeB].length)
    ∧ ((CreateServiceTypes [exTypeA, exTypeA] =
      if (keysOf (TypeEntries [exTypeA, exTypeA])).Nodup
      then Except.ok (TypeEntries [exTypeA, exTypeA])
      else Except.error Fatal.serviceTypeDeployedTwice)
    ∧ (TypeEntries [exTypeA, exTypeA]).length = [exTypeA, exTypeA].length) :=
  ⟨C6 [exTypeA, exTypeB] (by decide), C6 [exTypeA, exTypeA] (by decide)⟩

/-! ### Claim C7 -/

/-- An SHM binding whose event vector declares the same name twice with two
different ids, and present-but-empty field and method vectors. -/
def exDupEventBinding : WireBinding :=
  { binding := BindingType.SHM
    service_id := 7
    events := some [{ event_name := "e", event_id := 1 }, { event_name := "e", event_id := 2 }]
    fields := some []
    methods := some [] }

/-- A service type carrying the duplicate-event-name binding. -/
def exDupEventType : WireServiceType :=
  { service_type_name := "S"
    version := some { major := 1, minor := 0 }
    bindings := [exDupEventBinding] }

/-- Claim C7, counterexample: a service type whose SHM binding declares the
event name e twice (ids 1 and 2) is not rejected — uniqueness is not
required: the load succeeds and the built mapping silently keeps the first
declaration (id 1), dropping the conflicting second one. -/
theorem C7_counterexample :
    isOk (CreateServiceTypes [exDupEventType]) = true
    ∧ (CreateServiceTypes [exDupEventType]).toOption.map (fun m => m.map (fun p => p.2))
      = some [{ binding_info := ServiceTypeBindingInformation.lola
                  { service_id := 7, events := [(("e"), 1)], fields := [], methods := [] } }] := by
  constructor
  · decide
  · decide

/-- Claim C7 (amended): within a service type's SHM binding, key uniqueness of
the three name→id sections is not checked; `emplace` silently collapses
duplicates — the built mapping contains exactly one entry per distinct input
name, and that entry carries the id of the FIRST input entry with that name
(later conflicting declarations are dropped, never fatal and never merged). -/
theorem C7_amended (binding : WireBinding)
    (evs : List WireTypeEvent) (fds : List WireTypeField) (mds : List WireTypeMethod)
    (he : binding.events = some evs) (hf : binding.fields = some fds)
    (hm : binding.methods = some mds) :
    (∀ n, lookupKey (BuildLolaServiceTypeDeployment binding).events n
        = (evs.find? (fun e => decide (e.event_name = n))).map (fun e => e.event_id % 256))
    ∧ (keysOf (BuildLolaServiceTypeDeployment binding).events).Nodup
    ∧ (∀ n, lookupKey (BuildLolaServiceTypeDeployment binding).fields n
        = (fds.find? (fun e => decide (e.field_name = n))).map (fun e => e.field_id % 256))
    ∧ (keysOf (BuildLolaServiceTypeDeployment binding).fields).Nodup
    ∧ (∀ n, lookupKey (BuildLolaServiceTypeDeployment binding).methods n
        = (mds.find? (fun e => decide (e.method_name = n))).map (fun e => e.method_id % 256))
    ∧ (keysOf (BuildLolaServiceTypeDeployment binding).methods).Nodup := by
  refine ⟨?_, ?_, ?_, ?_, ?_, ?_⟩
  · intro n
    simp only [BuildLolaServiceTypeDeployment, he]
    rw [lookupKey_foldl_emplace (fun e => e.event_name) (fun e => e.event_id % 256) evs [] n]
    rfl
  · simp only [BuildLolaServiceTypeDeployment, he]
    exact keysOf_foldl_emplace_nodup _ _ evs [] (by simp [keysOf])
  · intro n
    simp only [BuildLolaServiceTypeDeployment, hf]
    rw [lookupKey_foldl_emplace (fun e => e.field_name) (fun e => e.field_id % 256) fds [] n]
    rfl
  · simp only [BuildLolaServiceTypeDeployment, hf]
    exact keysOf_foldl_emplace_nodup _ _ fds [] (by simp [keysOf])
  · intro n
    simp only [BuildLolaServiceTypeDeployment, hm]
    rw [lookupKey_foldl_emplace (fun e => e.method_name) (fun e => e.method_id % 256) mds [] n]
    rfl
  · simp only [BuildLolaServiceTypeDeployment, hm]
    exact keysOf_foldl_emplace_nodup _ _ mds [] (by simp [keysOf])

/-- Claim C7 witness: the amended theorem applied to the duplicate-event-name
binding and the name e. -/
theorem C7_amended_witness :
    lookupKey (BuildLolaServiceTypeDeployment exDupEventBinding).events ("e")
      = (([{ event_name := "e", event_id := 1 },
           { event_name := "e", event_id := 2 }] : List WireTypeEvent).find?
          (fun e => decide (e.event_name = ("e")))).map (fun e => e.event_id % 256) :=
  (C7_amended exDupEventBinding
      [{ event_name := "e", event_id := 1 }, { event_name := "e", event_id := 2 }]
      [] [] rfl rfl rfl).1 ("e")

/-! ### Claim C3 -/

/-- Claim C3: every zero-sentinel numeric field (instance id, event/field
sample-slot count, event/field max-subscriber count, method queue size, the
three shared-memory size overrides, application id) maps a raw value of 0 to
the unset optional and any raw value v bigger than 0 to the present optional
carrying exactly v, for all values representable in the field's wire type
(the stated bounds; the narrowing casts in the source are then
value-preserving). -/
theorem C3 (event : WireEvent) (field : WireField) (method : WireMethod)
    (inst : WireInstance) (g : WireGlobal)
    (he1 : event.number_of_sample_slots < 65536) (he2 : event.max_subscribers < 256)
    (hf1 : field.number_of_sample_slots < 65536) (hf2 : field.max_subscribers < 256)
    (hm : method.queue_size < 256) :
    ((ParseEventDeployment event).number_of_sample_slots
        = if event.number_of_sample_slots = 0 then none else some event.number_of_sample_slots)
    ∧ ((ParseEventDeployment event).max_subscribers
        = if event.max_subscribers = 0 then none else some event.max_subscribers)
    ∧ ((ParseFieldDeployment field).number_of_sample_slots
        = if field.number_of_sample_slots = 0 then none else some field.number_of_sample_slots)
    ∧ ((ParseFieldDeployment field).max_subscribers
        = if field.max_subscribers = 0 then none else some field.max_subscribers)
    ∧ ((ParseMethodDeployment method).queue_size
        = if method.queue_size = 0 then none else some method.queue_size)
    ∧ ((CreateLolaServiceInstanceDeployment inst).instance_id
        = if inst.instance_id = 0 then none else some inst.instance_id)
    ∧ ((CreateLolaServiceInstanceDeployment inst).shared_memory_size
        = if inst.shm_size = 0 then none else some inst.shm_size)
    ∧ ((CreateLolaServiceInstanceDeployment inst).control_asil_b_memory_size
        = if inst.control_asil_b_shm_size = 0 then none else some inst.control_asil_b_shm_size)
    ∧ ((CreateLolaServiceInstanceDeployment inst).control_qm_memory_size
        = if inst.control_qm_shm_size = 0 then none else some inst.control_qm_shm_size)
    ∧ ((CreateGlobalConfiguration (some g)).application_id
        = if g.application_id = 0 then none else some g.application_id) := by
  refine ⟨?_, ?_, ?_, ?_, ?_, ?_, ?_, ?_, ?_, ?_⟩
  · simpa [ParseEventDeployment] using sentinel_mod_eq _ _ he1
  · simpa [ParseEventDeployment] using sentinel_mod_eq _ _ he2
  · simpa [ParseFieldDeployment] using sentinel_mod_eq _ _ hf1
  · simpa [ParseFieldDeployment] using sentinel_mod_eq _ _ hf2
  · simpa [ParseMethodDeployment] using sentinel_mod_eq _ _ hm
  · simp [CreateLolaServiceInstanceDeployment, sentinel_ne_eq]
  · simpa [CreateLolaServiceInstanceDeployment] using sentinel_eq inst.shm_size
  · simpa [CreateLolaServiceInstanceDeployment] using sentinel_eq inst.control_asil_b_shm_size
  · simpa [CreateLolaServiceInstanceDeployment] using sentinel_eq inst.control_qm_shm_size
  · simp [CreateGlobalConfiguration, sentinel_ne_eq]

/-- An instance-level event with non-zero counts. -/
def exEvent : WireEvent :=
  { event_name := "e", number_of_sample_slots := 4, max_subscribers := 2,
    enforce_max_samples := false, number_of_ipc_tracing_slots := 0 }

/-- An instance-level field with non-zero counts. -/
def exField : WireField :=
  { field_name := "f", number_of_sample_slots := 3, max_subscribers := 1,
    enforce_max_samples := true, number_of_ipc_tracing_slots := 0 }

/-- An instance-level method with a non-zero queue size. -/
def exMethod : WireMethod := { method_name := "m", queue_size := 5 }

/-- An SHM instance record with non-zero id and memory sizes. -/
def exInstSized : WireInstance :=
  { exInstA with
    instance_id := 3
    shm_size := 100
    control_asil_b_shm_size := 7
    control_qm_shm_size := 9 }

/-- A global section with a non-zero application id. -/
def exGlobal : WireGlobal :=
  { asil_level := AsilLevel.B, application_id := 42, queue_size := none,
    shm_size_calc_mode := 1 }

/-- A global section with application id 0. -/
def exGlobalZero : WireGlobal := { exGlobal with application_id := 0 }

/-- Claim C3 witness: the theorem applied to concrete non-zero raw values and,
for the zero side of the sentinel, to the all-zero instance record. -/
theorem C3_witness :
    (ParseEventDeployment exEvent).number_of_sample_slots = some 4
    ∧ (ParseEventDeployment exEvent).max_subscribers = some 2
    ∧ (ParseFieldDeployment exField).number_of_sample_slots = some 3
    ∧ (ParseFieldDeployment exField).max_subscribers = some 1
    ∧ (ParseMethodDeployment exMethod).queue_size = some 5
    ∧ (CreateLolaServiceInstanceDeployment exInstSized).instance_id = some 3
    ∧ (CreateLolaServiceInstanceDeployment exInstSized).shared_memory_size = some 100
    ∧ (CreateLolaServiceInstanceDeployment exInstSized).control_asil_b_memory_size = some 7
    ∧ (CreateLolaServiceInstanceDeployment exInstSized).control_qm_memory_size = some 9
    ∧ (CreateGlobalConfiguration (some exGlobal)).application_id = some 42
    ∧ (CreateLolaServiceInstanceDeployment exInstA).shared_memory_size = none
    ∧ (CreateGlobalConfiguration (some exGlobalZero)).application_id = none := by
  have h1 := C3 exEvent exField exMethod exInstSized exGlobal
    (by decide) (by decide) (by decide) (by decide) (by decide)
  have h2 := C3 exEvent exField exMethod exInstA exGlobalZero
    (by decide) (by decide) (by decide) (by decide) (by decide)
  exact ⟨h1.1, h1.2.1, h1.2.2.1, h1.2.2.2.1, h1.2.2.2.2.1, h1.2.2.2.2.2.1,
    h1.2.2.2.2.2.2.1, h1.2.2.2.2.2.2.2.1, h1.2.2.2.2.2.2.2.2.1, h1.2.2.2.2.2.2.2.2.2,
    h2.2.2.2.2.2.2.1, h2.2.2.2.2.2.2.2.2.2⟩

/-! ### Claim C8 -/

/-- Claim C8: whenever the root's global section is present, the returned
GlobalConfiguration carries the single supported shared-memory size
calculation mode (simulation) regardless of any mode value the buffer may
encode, and the application id is set exactly when its raw value is
non-zero. -/
theorem C8 (g : WireGlobal) :
    (CreateGlobalConfiguration (some g)).shm_size_calc_mode
      = some ShmSizeCalculationMode.kSimulation
    ∧ (CreateGlobalConfiguration (some g)).application_id
      = (if g.application_id = 0 then none else some g.application_id) := by
  constructor
  · rfl
  · simp [CreateGlobalConfiguration, sentinel_ne_eq]

/-! ### Claim C9 -/

/-- Claim C9: when the tracing section is present, the returned
TracingConfiguration carries the encoded trace-filter-config path when that
field is present and the fixed default path `./etc/mw_com_trace_filter.json`
when it is absent; when the tracing section is entirely absent, the mapper
returns the default-constructed TracingConfiguration with no field set from
the buffer. -/
theorem C9 (t : WireTracing) :
    (CreateTracingConfiguration (some t)).trace_filter_config_path
      = some (t.trace_filter_config_path.getD defaultTraceFilterConfigPath)
    ∧ (CreateTracingConfiguration (some t)).tracing_enabled = some t.enable
    ∧ (CreateTracingConfiguration (some t)).application_instance_id
      = some t.application_instance_id
    ∧ CreateTracingConfiguration none
      = { tracing_enabled := none, application_instance_id := none,
          trace_filter_config_path := none } := by
  refine ⟨?_, rfl, rfl, rfl⟩
  cases ht : t.trace_filter_config_path <;>
    simp [CreateTracingConfiguration, ht, Option.getD]

/-! ### Claim C10 -/

/-- Claim C10: in the permission-map parsing, for each quality level
independently, the built consumer (resp. provider) permission map has an
entry for that level exactly when the corresponding uid-list field is present
in the buffer, and that entry carries exactly the encoded uid list — so a
present-but-empty list yields an entry with an empty uid vector while an
absent list yields no entry at all. -/
theorem C10 (inst : WireInstance) :
    lookupKey (CreateLolaServiceInstanceDeployment inst).allowed_consumer QualityType.kASIL_QM
      = inst.allowed_consumer.bind (fun p => p.qm)
    ∧ lookupKey (CreateLolaServiceInstanceDeployment inst).allowed_consumer QualityType.kASIL_B
      = inst.allowed_consumer.bind (fun p => p.b)
    ∧ lookupKey (CreateLolaServiceInstanceDeployment inst).allowed_provider QualityType.kASIL_QM
      = inst.allowed_provider.bind (fun p => p.qm)
    ∧ lookupKey (CreateLolaServiceInstanceDeployment inst).allowed_provider QualityType.kASIL_B
      = inst.allowed_provider.bind (fun p => p.b) := by
  have key : ∀ op : Option WirePermissions,
      lookupKey (ParsePermissions op) QualityType.kASIL_QM = op.bind (fun p => p.qm)
      ∧ lookupKey (ParsePermissions op) QualityType.kASIL_B = op.bind (fun p => p.b) := by
    intro op
    cases op with
    | none => exact ⟨rfl, rfl⟩
    | some p =>
        cases hq : p.qm <;> cases hb : p.b <;>
          simp [ParsePermissions, hq, hb, emplace, containsKey, lookupKey, Option.bind]
  exact ⟨(key inst.allowed_consumer).1, (key inst.allowed_consumer).2,
    (key inst.allowed_provider).1, (key inst.allowed_provider).2⟩

end FlatBufferConfig
